import Mathlib

/-!
Verification of the OAuth credential lifecycle subsystem of `gistreach`.

Shallow embedding of:
- `src/lib/encryption.ts` (AES-256-GCM blob layout, object helpers)
- `src/server/services/auth/oauth-state-manager.ts` (state codec, session store)
- `src/server/services/auth/x-auth-provider.ts` and the Facebook/LinkedIn
  providers (callback state validation)
- `src/server/services/content.ts` `CredentialService`
  (store/fetch/update/revoke/needsRefresh)

Cryptographic primitives (AES-GCM, PBKDF2, base64, JSON) are modelled as
parameters carrying their library contracts (inverse laws, tag length);
all control flow, validation logic, field merging and blob layout are
translated concretely from the source.
-/

namespace GistReach

/-! ## Encryption service (`src/lib/encryption.ts`) -/

namespace Encryption

/-- Contract of the AES-256-GCM primitive as used through `crypto.createCipheriv` /
`crypto.createDecipheriv`: arguments are key, IV, AAD, plaintext bytes (the UTF-8
bytes of the JS string); the result is (ciphertext, auth tag).  The library
guarantees a 16-byte tag (`TAG_LENGTH = 16`) and that decryption with the same
key/IV/AAD/tag recovers the plaintext. -/
structure Aead where
  encA : List Nat → List Nat → List Nat → List Nat → List Nat × List Nat
  decA : List Nat → List Nat → List Nat → List Nat → List Nat → Option (List Nat)
  tag_len : ∀ k iv aad pt, (encA k iv aad pt).2.length = 16
  dec_enc : ∀ k iv aad pt,
    decA k iv aad (encA k iv aad pt).2 (encA k iv aad pt).1 = some pt

/-- Contract of the base64 blob encoding (`Buffer.toString("base64")` /
`Buffer.from(_, "base64")`): an injection from byte lists into the blob
representation `β` with a computable partial inverse. -/
structure Base64 (β : Type) where
  toB : List Nat → β
  fromB : β → Option (List Nat)
  from_to : ∀ bs, fromB (toB bs) = some bs

/-- Contract of `JSON.stringify` / `JSON.parse` restricted to a JSON-encodable
type `α`: serialisation to bytes with a partial inverse. -/
structure JsonCodec (α : Type) where
  toJ : α → List Nat
  fromJ : List Nat → Option α
  from_to : ∀ o, fromJ (toJ o) = some o

/-- `SALT_LENGTH` -/
def saltLength : Nat := 32
/-- `IV_LENGTH` -/
def ivLength : Nat := 16
/-- `TAG_LENGTH` -/
def tagLength : Nat := 16

/-- `encrypt(text)`: derive a key from the master key and a fresh random salt
(`deriveKey` via PBKDF2, modelled by the parameter `kdf`), AES-GCM-encrypt with
a fresh random IV and the salt as AAD, and emit
`base64(salt ‖ iv ‖ tag ‖ ciphertext)`.  The randomly drawn `salt` and `iv`
are explicit arguments.  Throws (models `Error("Failed to encrypt data")`)
when the master key is absent/empty. -/
def encrypt {β : Type} (A : Aead) (B : Base64 β) (kdf : String → List Nat → List Nat)
    (masterKey : String) (salt iv : List Nat) (text : List Nat) : Except String β :=
  if masterKey = "" then .error "Failed to encrypt data"
  else
    let key := kdf masterKey salt
    let et := A.encA key iv salt text
    .ok (B.toB (salt ++ iv ++ et.2 ++ et.1))

/-- `decrypt(encryptedData)`: base64-decode, slice `salt = [0,32)`,
`iv = [32,48)`, `tag = [48,64)`, `ciphertext = [64,..)` (`Buffer.subarray`
clamps exactly like `List.take`/`List.drop`), re-derive the key from the salt,
and AES-GCM-decrypt with the salt as AAD.  Any failure yields the caught
`Error("Failed to decrypt data")`. -/
def decrypt {β : Type} (A : Aead) (B : Base64 β) (kdf : String → List Nat → List Nat)
    (masterKey : String) (blob : β) : Except String (List Nat) :=
  if masterKey = "" then .error "Failed to decrypt data"
  else
    match B.fromB blob with
    | none => .error "Failed to decrypt data"
    | some combined =>
      let salt := combined.take 32
      let iv := (combined.drop 32).take 16
      let tag := (combined.drop 48).take 16
      let ct := combined.drop 64
      let key := kdf masterKey salt
      match A.decA key iv salt tag ct with
      | none => .error "Failed to decrypt data"
      | some pt => .ok pt

/-- `encryptObject(obj)` = `encrypt(JSON.stringify(obj))`. -/
def encryptObject {α β : Type} (A : Aead) (B : Base64 β) (J : JsonCodec α)
    (kdf : String → List Nat → List Nat) (masterKey : String)
    (salt iv : List Nat) (o : α) : Except String β :=
  encrypt A B kdf masterKey salt iv (J.toJ o)

/-- `decryptObject(encryptedData)` = `JSON.parse(decrypt(encryptedData))`
(a JSON parse failure is an uncaught throw, modelled as an error). -/
def decryptObject {α β : Type} (A : Aead) (B : Base64 β) (J : JsonCodec α)
    (kdf : String → List Nat → List Nat) (masterKey : String)
    (blob : β) : Except String α :=
  match decrypt A B kdf masterKey blob with
  | .error e => .error e
  | .ok bs =>
    match J.fromJ bs with
    | none => .error "JSON parse failed"
    | some o => .ok o

/-- Slicing the concatenated blob `salt ‖ iv ‖ tag ‖ ct` at offsets 32/48/64
recovers the four components when the lengths are 32, 16 and 16. -/
theorem slice_layout (s i t c : List Nat)
    (hs : s.length = 32) (hi : i.length = 16) (ht : t.length = 16) :
    (s ++ i ++ t ++ c).take 32 = s ∧
    ((s ++ i ++ t ++ c).drop 32).take 16 = i ∧
    ((s ++ i ++ t ++ c).drop 48).take 16 = t ∧
    (s ++ i ++ t ++ c).drop 64 = c := by
  have h1 : (s ++ i ++ t ++ c) = s ++ (i ++ (t ++ c)) := by simp [List.append_assoc]
  have h2 : (s ++ i ++ t ++ c) = (s ++ i) ++ (t ++ c) := by simp [List.append_assoc]
  have h3 : (s ++ i ++ t ++ c) = ((s ++ i) ++ t) ++ c := by simp [List.append_assoc]
  refine ⟨?_, ?_, ?_, ?_⟩
  · rw [h1, List.take_left' hs]
  · rw [h1, List.drop_left' hs, List.take_left' hi]
  · have hsi : (s ++ i).length = 48 := by simp [hs, hi]
    rw [h2, List.drop_left' hsi, List.take_left' ht]
  · have hsit : ((s ++ i) ++ t).length = 64 := by simp [hs, hi, ht]
    rw [h3, List.drop_left' hsit]

/-- Concrete AEAD instance used to evaluate the model: identity cipher with a
constant 16-byte tag (satisfies the library contract). -/
def aeadId : Aead where
  encA := fun _ _ _ pt => (pt, List.replicate 16 0)
  decA := fun _ _ _ _ ct => some ct
  tag_len := fun _ _ _ _ => by simp
  dec_enc := fun _ _ _ _ => rfl

/-- Concrete blob-codec instance: the blob representation is the byte list itself. -/
def b64Id : Base64 (List Nat) where
  toB := id
  fromB := some
  from_to := fun _ => rfl

/-- Concrete JSON-codec instance over raw byte lists. -/
def jsonId : JsonCodec (List Nat) where
  toJ := id
  fromJ := some
  from_to := fun _ => rfl

/-- Concrete KDF instance (any function fits the contract; determinism is all
the round trip needs). -/
def kdfZero : String → List Nat → List Nat := fun _ _ => []

end Encryption

/-- C2: For every string `s` (as UTF-8 bytes), `decrypt(encrypt(s)) = s`, and
for every JSON-encodable object `o`, `decryptObject(encryptObject(o)) = o` —
for any AES-GCM primitive, base64 codec, JSON codec, and KDF satisfying their
library contracts, any non-empty master key, and any freshly drawn 32-byte
salt and 16-byte IV. -/
theorem c2_encrypt_decrypt_roundtrip {α β : Type}
    (A : Encryption.Aead) (B : Encryption.Base64 β) (J : Encryption.JsonCodec α)
    (kdf : String → List Nat → List Nat) (masterKey : String)
    (salt iv : List Nat) (text : List Nat) (o : α)
    (hm : masterKey ≠ "") (hs : salt.length = 32) (hi : iv.length = 16) :
    (Encryption.encrypt A B kdf masterKey salt iv text).bind
        (Encryption.decrypt A B kdf masterKey) = .ok text ∧
    (Encryption.encryptObject A B J kdf masterKey salt iv o).bind
        (Encryption.decryptObject A B J kdf masterKey) = .ok o := by
  have key : ∀ pt : List Nat,
      Encryption.decrypt A B kdf masterKey
        (B.toB (salt ++ iv ++ (A.encA (kdf masterKey salt) iv salt pt).2 ++
          (A.encA (kdf masterKey salt) iv salt pt).1)) = .ok pt := by
    intro pt
    unfold Encryption.decrypt
    rw [if_neg hm, B.from_to]
    have hsl := Encryption.slice_layout salt iv
      ((A.encA (kdf masterKey salt) iv salt pt).2)
      ((A.encA (kdf masterKey salt) iv salt pt).1)
      hs hi (A.tag_len _ _ _ _)
    simp only [hsl.1, hsl.2.1, hsl.2.2.1, hsl.2.2.2, A.dec_enc]
  constructor
  · unfold Encryption.encrypt
    rw [if_neg hm]
    simp only [Except.bind]
    exact key text
  · unfold Encryption.encryptObject Encryption.decryptObject Encryption.encrypt
    rw [if_neg hm]
    simp only [Except.bind]
    rw [key (J.toJ o)]
    simp only [J.from_to]

/-- Witness for C2: the round trip evaluated at concrete inputs with the
identity AEAD/base64/JSON instances, master key `"k"`, a 32-byte salt, a
16-byte IV, plaintext `[104, 105]` and object `[1, 2, 3]`. -/
theorem c2_encrypt_decrypt_roundtrip_witness :
    (Encryption.encrypt Encryption.aeadId Encryption.b64Id Encryption.kdfZero "k"
        (List.replicate 32 7) (List.replicate 16 9) [104, 105]).bind
      (Encryption.decrypt Encryption.aeadId Encryption.b64Id Encryption.kdfZero "k")
      = .ok [104, 105] ∧
    (Encryption.encryptObject Encryption.aeadId Encryption.b64Id Encryption.jsonId
        Encryption.kdfZero "k" (List.replicate 32 7) (List.replicate 16 9) [1, 2, 3]).bind
      (Encryption.decryptObject Encryption.aeadId Encryption.b64Id Encryption.jsonId
        Encryption.kdfZero "k")
      = .ok [1, 2, 3] :=
  c2_encrypt_decrypt_roundtrip Encryption.aeadId Encryption.b64Id Encryption.jsonId
    Encryption.kdfZero "k" (List.replicate 32 7) (List.replicate 16 9) [104, 105] [1, 2, 3]
    (by decide) (by simp) (by simp)

/-! ## OAuth state manager (`src/server/services/auth/oauth-state-manager.ts`) -/

/-- `SocialPlatform` enum from `base-auth-provider.ts`
(`"facebook"`, `"x"`, `"linkedin"`). -/
inductive SocialPlatform
  | facebook
  | x
  | linkedin
deriving DecidableEq, Repr

/-- `AccountType` enum (`"personal"`, `"business"`, `"page"`). -/
inductive AccountType
  | personal
  | business
  | page
deriving DecidableEq, Repr

/-- The `OAuthState` payload carried inside the encrypted state token. -/
structure OAuthState where
  workspaceId : String
  platform : SocialPlatform
  accountType : AccountType
  timestamp : Int
  nonce : String
deriving DecidableEq, Repr

/-- Contract of the deterministic state cipher
(`crypto.createCipher("aes-256-cbc", secret)` / `createDecipher`, plus the
hex/base64url transport): an encryption of the serialised payload `σ` into the
token representation `τ`, with decryption as partial inverse.  Decryption of a
non-ciphertext throws, modelled by `none`. -/
structure StateCipher (σ τ : Type) where
  encC : String → σ → τ
  decC : String → τ → Option σ
  dec_enc : ∀ k s, decC k (encC k s) = some s

/-- Contract of `JSON.stringify` / `JSON.parse` on the `OAuthState` object. -/
structure StateJson (σ : Type) where
  ser : OAuthState → σ
  deser : σ → Option OAuthState
  deser_ser : ∀ st, deser (ser st) = some st

/-- `OAuthStateManager.STATE_EXPIRY_MS = 10 * 60 * 1000`. -/
def stateExpiryMs : Int := 10 * 60 * 1000

/-- `OAuthStateManager.generateState(workspaceId, platform, accountType)`:
JSON-serialise `{workspaceId, platform, accountType, timestamp: Date.now(),
nonce}` and encrypt it under the state secret.  The wall clock reading and the
random nonce are explicit arguments. -/
def generateState {σ τ : Type} (C : StateCipher σ τ) (J : StateJson σ)
    (secret : String) (workspaceId : String) (platform : SocialPlatform)
    (accountType : AccountType) (now : Int) (nonce : String) : τ :=
  C.encC secret (J.ser ⟨workspaceId, platform, accountType, now, nonce⟩)

/-- Result shape of `OAuthStateManager.parseState`. -/
structure ParseStateResult where
  data : Option OAuthState
  isValid : Bool
  error : Option String
deriving DecidableEq, Repr

/-- `OAuthStateManager.parseState(state)`: decrypt, `JSON.parse`, reject when a
required field is JS-falsy (`!stateData.workspaceId || !stateData.platform ||
!stateData.accountType || !stateData.timestamp || !stateData.nonce` — for the
typed payload the platform/accountType enum strings are never empty, so the
falsy fields are empty `workspaceId`/`nonce` and `timestamp = 0`), reject when
`now - timestamp > STATE_EXPIRY_MS`, otherwise valid.  Any thrown error is
caught and mapped to `"Failed to parse state"`.  Note: no platform check. -/
def parseState {σ τ : Type} (C : StateCipher σ τ) (J : StateJson σ)
    (secret : String) (now : Int) (state : τ) : ParseStateResult :=
  match C.decC secret state with
  | none => ⟨none, false, some "Failed to parse state"⟩
  | some decrypted =>
    match J.deser decrypted with
    | none => ⟨none, false, some "Failed to parse state"⟩
    | some d =>
      if d.workspaceId = "" ∨ d.timestamp = 0 ∨ d.nonce = "" then
        ⟨none, false, some "Invalid state format"⟩
      else if now - d.timestamp > stateExpiryMs then
        ⟨some d, false, some "State has expired"⟩
      else
        ⟨some d, true, none⟩

/-! ## Ephemeral session store (`OAuthSessionStore`) -/

/-- One entry of the in-memory `Map`: payload plus absolute expiry. -/
structure SessionEntry (π : Type) where
  data : π
  expiresAt : Int

/-- The `OAuthSessionStore` backing `Map`, as a functional map over keys `κ`. -/
def SessionStore (κ : Type) (π : Type) : Type := κ → Option (SessionEntry π)

/-- The empty store. -/
def sessionEmpty {κ π : Type} : SessionStore κ π := fun _ => none

/-- `OAuthSessionStore.set(key, data, ttlMs)`: stores the entry with
`expiresAt = Date.now() + ttlMs` (the cleanup-timer start has no effect on the
map contents). -/
def sessionSet {κ π : Type} [DecidableEq κ] (s : SessionStore κ π)
    (key : κ) (d : π) (ttlMs now : Int) : SessionStore κ π :=
  fun k => if k = key then some ⟨d, now + ttlMs⟩ else s k

/-- `this.store.delete(key)`. -/
def sessionDelete {κ π : Type} [DecidableEq κ] (s : SessionStore κ π)
    (key : κ) : SessionStore κ π :=
  fun k => if k = key then none else s k

/-- `OAuthSessionStore.set` default TTL: `10 * 60 * 1000`. -/
def sessionDefaultTtl : Int := 10 * 60 * 1000

/-- `OAuthSessionStore.get(key)`: missing key → `null`; expired entry
(`Date.now() > entry.expiresAt`) → delete and `null`; live entry → delete
(one-time use) and return its data.  Returns the updated map and the result. -/
def sessionGet {κ π : Type} [DecidableEq κ] (s : SessionStore κ π)
    (now : Int) (key : κ) : SessionStore κ π × Option π :=
  match s key with
  | none => (s, none)
  | some e =>
    if now > e.expiresAt then (sessionDelete s key, none)
    else (sessionDelete s key, some e.data)

/-! ## Provider callback validation
(`x-auth-provider.ts`, `facebook-auth-provider`, `linkedin-auth-provider`) -/

/-- The `{ codeVerifier }` object stored under `pkce:${state}`. -/
structure PkceData where
  codeVerifier : String
deriving DecidableEq, Repr

/-- Outcome of the validation phase of `handleCallback`, before any network
call: a thrown `TRPCError BAD_REQUEST`, or control reaching the token
exchange with the decoded state (and, for X, the consumed PKCE verifier). -/
inductive CallbackPhase
  | badRequest (message : String)
  | proceed (data : OAuthState) (codeVerifier : Option String)
deriving DecidableEq, Repr

/-- `XAuthProvider.initiateAuth`: mints a state for `SocialPlatform.X` and
stores the PKCE verifier in the session store under `pkce:${state}` (the
`pkce:` prefix is an injective tag, so the key is modelled by the state token
itself in a store dedicated to PKCE entries). -/
def xInitiateAuth {σ τ : Type} [DecidableEq τ] (C : StateCipher σ τ) (J : StateJson σ)
    (secret : String) (session : SessionStore τ PkceData) (workspaceId : String)
    (accountType : AccountType) (now : Int) (nonce codeVerifier : String) :
    τ × SessionStore τ PkceData :=
  let state := generateState C J secret workspaceId .x accountType now nonce
  (state, sessionSet session state ⟨codeVerifier⟩ sessionDefaultTtl now)

/-- `FacebookAuthProvider.initiateAuth` mints a state for
`SocialPlatform.FACEBOOK` and stores nothing in the session store. -/
def facebookInitiateState {σ τ : Type} (C : StateCipher σ τ) (J : StateJson σ)
    (secret : String) (workspaceId : String) (accountType : AccountType)
    (now : Int) (nonce : String) : τ :=
  generateState C J secret workspaceId .facebook accountType now nonce

/-- Validation phase of `XAuthProvider.handleCallback`: reject with
`BAD_REQUEST "Invalid or expired OAuth state"` when
`!stateResult.isValid || !stateResult.data`; then consume the PKCE verifier
from the session store, rejecting with
`BAD_REQUEST "PKCE code verifier not found"` when `!pkceData?.codeVerifier`;
otherwise the token exchange is reached. -/
def xHandleCallbackPhase {σ τ : Type} [DecidableEq τ] (C : StateCipher σ τ)
    (J : StateJson σ) (secret : String) (now : Int)
    (session : SessionStore τ PkceData) (state : τ) :
    SessionStore τ PkceData × CallbackPhase :=
  let r := parseState C J secret now state
  match r.isValid, r.data with
  | true, some d =>
    let g := sessionGet session now state
    match g.2 with
    | none => (g.1, .badRequest "PKCE code verifier not found")
    | some pk =>
      if pk.codeVerifier = "" then (g.1, .badRequest "PKCE code verifier not found")
      else (g.1, .proceed d (some pk.codeVerifier))
  | _, _ => (session, .badRequest "Invalid or expired OAuth state")

/-- Validation phase of `FacebookAuthProvider.handleCallback` (and likewise
`LinkedInAuthProvider.handleCallback`): only the
`!stateResult.isValid || !stateResult.data` check guards the token exchange —
there is no PKCE lookup and no comparison of `stateResult.data.platform`
against the provider's own platform. -/
def facebookHandleCallbackPhase {σ τ : Type} (C : StateCipher σ τ)
    (J : StateJson σ) (secret : String) (now : Int) (state : τ) : CallbackPhase :=
  let r := parseState C J secret now state
  match r.isValid, r.data with
  | true, some d => .proceed d none
  | _, _ => .badRequest "Invalid or expired OAuth state"

/-- Concrete state-cipher instance used to evaluate the model: identity. -/
def cipherId : StateCipher OAuthState OAuthState where
  encC := fun _ s => s
  decC := fun _ t => some t
  dec_enc := fun _ _ => rfl

/-- Concrete state-JSON instance used to evaluate the model: identity. -/
def jsonStateId : StateJson OAuthState where
  ser := id
  deser := some
  deser_ser := fun _ => rfl

/-- C1 (code evaluation at the failing input): a fresh, well-formed state
minted for platform `x` and presented to Facebook's callback handler is NOT
rejected — validation passes and control reaches the token exchange, because
`OAuthStateManager.parseState` never compares the state's platform with the
callback's platform.  (The specific facebook→x direction named by the claim
does end in `BAD_REQUEST`, but only because X's callback cannot find a PKCE
verifier for the foreign state, not because of platform validation.) -/
theorem c1_cross_platform_state_accepted :
    facebookHandleCallbackPhase cipherId jsonStateId "sec" 1
        (generateState cipherId jsonStateId "sec" "ws1" .x .personal 1 "n1")
      = .proceed ⟨"ws1", .x, .personal, 1, "n1"⟩ none ∧
    (xHandleCallbackPhase cipherId jsonStateId "sec" 1 sessionEmpty
        (facebookInitiateState cipherId jsonStateId "sec" "ws1" .personal 1 "n1")).2
      = .badRequest "PKCE code verifier not found" := by
  constructor <;> rfl

/-- C3: a state encoded at time `T` parses as valid at `T + 9min` and as
invalid with the expiry reason at `T + 11min`, for any cipher/JSON codec
satisfying the library contracts, any secret, any non-empty workspace id and
nonce, and any non-zero mint time. -/
theorem c3_state_expiry_window {σ τ : Type} (C : StateCipher σ τ) (J : StateJson σ)
    (secret workspaceId nonce : String) (p : SocialPlatform) (a : AccountType)
    (T : Int) (hw : workspaceId ≠ "") (hn : nonce ≠ "") (ht : T ≠ 0) :
    parseState C J secret (T + 9 * 60 * 1000)
        (generateState C J secret workspaceId p a T nonce)
      = ⟨some ⟨workspaceId, p, a, T, nonce⟩, true, none⟩ ∧
    parseState C J secret (T + 11 * 60 * 1000)
        (generateState C J secret workspaceId p a T nonce)
      = ⟨some ⟨workspaceId, p, a, T, nonce⟩, false, some "State has expired"⟩ := by
  unfold parseState generateState
  simp only [C.dec_enc, J.deser_ser, stateExpiryMs]
  constructor
  · rw [if_neg (by simp [hw, hn, ht]), if_neg (by omega)]
  · rw [if_neg (by simp [hw, hn, ht]), if_pos (by omega)]

/-- Witness for C3: evaluated with the identity cipher/codec, secret `"sec"`,
workspace `"ws1"`, nonce `"n1"`, mint time 1. -/
theorem c3_state_expiry_window_witness :
    parseState cipherId jsonStateId "sec" (1 + 9 * 60 * 1000)
        (generateState cipherId jsonStateId "sec" "ws1" .facebook .personal 1 "n1")
      = ⟨some ⟨"ws1", .facebook, .personal, 1, "n1"⟩, true, none⟩ ∧
    parseState cipherId jsonStateId "sec" (1 + 11 * 60 * 1000)
        (generateState cipherId jsonStateId "sec" "ws1" .facebook .personal 1 "n1")
      = ⟨some ⟨"ws1", .facebook, .personal, 1, "n1"⟩, false, some "State has expired"⟩ :=
  c3_state_expiry_window cipherId jsonStateId "sec" "ws1" "n1" .facebook .personal 1
    (by decide) (by decide) (by decide)

/-- C9: an entry put into the session store is returned by the first
(unexpired) read, and a second read of the same key with no intervening put
returns not-found, because a successful read deletes the entry. -/
theorem c9_take_once {κ π : Type} [DecidableEq κ] (s : SessionStore κ π)
    (key : κ) (d : π) (ttl now now₂ : Int) (h : ¬ now₂ > now + ttl) :
    (sessionGet (sessionSet s key d ttl now) now₂ key).2 = some d ∧
    (sessionGet (sessionGet (sessionSet s key d ttl now) now₂ key).1 now₂ key).2
      = none := by
  unfold sessionGet sessionSet sessionDelete
  simp [h]

/-- Witness for C9: a PKCE verifier stored at time 0 with the default TTL,
read twice at time 5. -/
theorem c9_take_once_witness :
    (sessionGet (sessionSet (sessionEmpty : SessionStore String PkceData) "pkce:k"
        (PkceData.mk "v") sessionDefaultTtl 0) 5 "pkce:k").2 = some (PkceData.mk "v") ∧
    (sessionGet (sessionGet (sessionSet (sessionEmpty : SessionStore String PkceData)
        "pkce:k" (PkceData.mk "v") sessionDefaultTtl 0) 5 "pkce:k").1 5 "pkce:k").2
      = none :=
  c9_take_once sessionEmpty "pkce:k" (PkceData.mk "v") sessionDefaultTtl 0 5 (by decide)

/-! ## Credential service (`src/server/services/content.ts`, `CredentialService`) -/

/-- Contract of the `CredentialManager` string encryption
(`encrypt`/`decrypt` from `src/lib/encryption.ts`, applied per token):
decryption inverts encryption; decryption of a corrupted blob throws,
modelled by `none`. -/
structure TokenCrypto where
  encTok : String → String
  decTok : String → Option String
  dec_enc : ∀ s, decTok (encTok s) = some s

/-- JS `a || b` for `a : string | undefined`: `a` wins unless it is falsy
(`undefined` or `""`). -/
def jsOrStr (a b : Option String) : Option String :=
  match a with
  | some s => if s = "" then b else some s
  | none => b

/-- JS truthiness of a `string | undefined` value. -/
def jsStrTruthy (o : Option String) : Bool :=
  match o with
  | some s => decide (s ≠ "")
  | none => false

/-- JS `x || undefined` for `x : string | null`: collapses `null` and `""` to
`undefined`. -/
def jsOrUndef (o : Option String) : Option String :=
  match o with
  | some s => if s = "" then none else some s
  | none => none

/-- One row of the `socialAccount` table (Prisma model), as used by
`CredentialService`.  Timestamps are epoch milliseconds. -/
structure SocialAccount where
  id : String
  workspaceId : String
  platform : String
  accountType : String
  platformAccountId : String
  displayName : String
  encryptedAccessToken : String
  encryptedRefreshToken : Option String
  tokenExpiresAt : Option Int
  isActive : Bool
  permissions : List String
  platformMetadata : List (String × String)
  createdAt : Int
  updatedAt : Int
deriving DecidableEq, Repr

/-- The `SocialCredentials` interface (decrypted, in-flight form). -/
structure SocialCredentials where
  accessToken : String
  refreshToken : Option String
  expiresAt : Option Int
  scope : Option (List String)
  platformAccountId : String
  displayName : String
  permissions : List String
  platformMetadata : List (String × String)
deriving DecidableEq, Repr

/-- `Partial<SocialCredentials>` as passed to `updateCredentials`:
`none` models an absent (`undefined`) field. -/
structure CredUpdates where
  accessToken : Option String
  refreshToken : Option String
  expiresAt : Option Int
  scope : Option (List String)
  displayName : Option String
  permissions : Option (List String)
  platformMetadata : Option (List (String × String))
deriving DecidableEq, Repr

/-- An update supplying nothing. -/
def CredUpdates.empty : CredUpdates := ⟨none, none, none, none, none, none, none⟩

/-- The `socialAccount` table. -/
abbrev Db : Type := List SocialAccount

/-- Service failure (`TRPCError INTERNAL_SERVER_ERROR`; the service's `catch`
blocks fold every thrown error, including the in-`try` `NOT_FOUND`s, into
this). -/
inductive SvcError
  | internal
deriving DecidableEq, Repr

/-- `db.socialAccount.findUnique({ where: { id: accountId } })`. -/
def findById (db : Db) (accountId : String) : Option SocialAccount :=
  db.find? fun a => a.id == accountId

/-- The `workspaceId_platform_platformAccountId` uniqueness predicate. -/
def tripleMatches (workspaceId platform platformAccountId : String)
    (a : SocialAccount) : Bool :=
  a.workspaceId == workspaceId && a.platform == platform &&
    a.platformAccountId == platformAccountId

/-- `db.socialAccount.findUnique({ where:
{ workspaceId_platform_platformAccountId: … } })`. -/
def findByTriple (db : Db) (workspaceId platform platformAccountId : String) :
    Option SocialAccount :=
  db.find? (tripleMatches workspaceId platform platformAccountId)

/-- `db.socialAccount.update({ where: { id }, data: … })`: rewrite the row with
the given id. -/
def updateById (db : Db) (accountId : String) (f : SocialAccount → SocialAccount) :
    Db :=
  db.map fun a => if a.id == accountId then f a else a

/-- `CredentialManager.encryptCredentials`, restricted to the two fields the
service persists (the `encryptedMetadata` blob it also produces is discarded
by every `CredentialService` caller): encrypt the access token; encrypt the
refresh token only when truthy (`if (credentials.refreshToken)`). -/
def encryptCredentials (K : TokenCrypto) (accessToken : String)
    (refreshToken : Option String) : String × Option String :=
  (K.encTok accessToken,
    match refreshToken with
    | some r => if r = "" then none else some (K.encTok r)
    | none => none)

/-- `CredentialManager.decryptCredentials` as invoked by `getCredentials`
(which passes `socialAccount.encryptedRefreshToken || undefined`, and the
manager itself re-checks `if (encryptedData.encryptedRefreshToken)`; the two
truthiness collapses compose to one `jsOrUndef`): decrypt the access token,
and the refresh token when a truthy blob is present.  A failed decryption
throws (`none`). -/
def decryptCredentials (K : TokenCrypto) (encA : String) (encR : Option String) :
    Option (String × Option String) :=
  match K.decTok encA with
  | none => none
  | some a =>
    match jsOrUndef encR with
    | none => some (a, none)
    | some rblob =>
      match K.decTok rblob with
      | none => none
      | some r => some (a, some r)

/-- `CredentialService.getCredentials(accountId)`: `null` when the row is
missing or `!socialAccount.isActive`; `null` (after an audit log) when
`tokenExpiresAt && tokenExpiresAt < new Date()`; otherwise decrypt on the fly
(`scope` comes from `decryptedData.scope`, which is always `undefined` because
`getCredentials` never hands the metadata blob to `decryptCredentials`).
A decryption failure is caught and rethrown as `INTERNAL_SERVER_ERROR`. -/
def getCredentials (K : TokenCrypto) (db : Db) (now : Int) (accountId : String) :
    Except SvcError (Option SocialCredentials) :=
  match findById db accountId with
  | none => .ok none
  | some acc =>
    if acc.isActive = false then .ok none
    else if acc.tokenExpiresAt.any (fun t => decide (t < now)) then .ok none
    else
      match decryptCredentials K acc.encryptedAccessToken acc.encryptedRefreshToken with
      | none => .error .internal
      | some (a, r) =>
        .ok (some
          { accessToken := a
            refreshToken := r
            expiresAt := acc.tokenExpiresAt
            scope := none
            platformAccountId := acc.platformAccountId
            displayName := acc.displayName
            permissions := acc.permissions
            platformMetadata := acc.platformMetadata })

/-- The refresh-token value a decrypt pass recovers from a stored blob:
`some none` when no truthy blob is stored, `some (some r)` when the blob
decrypts to `r`, `none` when decryption would throw. -/
def refreshViewBlob (K : TokenCrypto) (encR : Option String) :
    Option (Option String) :=
  match jsOrUndef encR with
  | none => some none
  | some b =>
    match K.decTok b with
    | none => none
    | some r => some (some r)

/-- `CredentialService.storeCredentials(workspaceId, platform, accountType,
credentials)`: encrypt, then upsert on
(workspaceId, platform, platformAccountId).  On conflict the existing row is
updated — display name, token blobs, expiry, permissions, metadata, and
`isActive: true` — with Prisma skipping `undefined` values
(`encryptedRefreshToken`/`tokenExpiresAt` keep their stored values when the
new credentials omit them); otherwise a fresh row is created.  `freshId` is
the id Prisma would mint. -/
def storeCredentials (K : TokenCrypto) (db : Db) (now : Int) (freshId : String)
    (workspaceId platform accountType : String) (c : SocialCredentials) :
    Db × SocialAccount :=
  let ed := encryptCredentials K c.accessToken c.refreshToken
  match findByTriple db workspaceId platform c.platformAccountId with
  | some existing =>
    let upd : SocialAccount :=
      { existing with
        displayName := c.displayName
        encryptedAccessToken := ed.1
        encryptedRefreshToken :=
          match ed.2 with
          | some b => some b
          | none => existing.encryptedRefreshToken
        tokenExpiresAt :=
          match c.expiresAt with
          | some t => some t
          | none => existing.tokenExpiresAt
        isActive := true
        permissions := c.permissions
        platformMetadata := c.platformMetadata
        updatedAt := now }
    (updateById db existing.id fun _ => upd, upd)
  | none =>
    let created : SocialAccount :=
      { id := freshId
        workspaceId := workspaceId
        platform := platform
        accountType := accountType
        platformAccountId := c.platformAccountId
        displayName := c.displayName
        encryptedAccessToken := ed.1
        encryptedRefreshToken := ed.2
        tokenExpiresAt := c.expiresAt
        isActive := true
        permissions := c.permissions
        platformMetadata := c.platformMetadata
        createdAt := now
        updatedAt := now }
    (db ++ [created], created)

/-- `CredentialService.updateCredentials(accountId, updates)`: missing row →
thrown `NOT_FOUND`, folded by the `catch` into `INTERNAL_SERVER_ERROR`.  When
a token field is supplied (`updates.accessToken || updates.refreshToken`
truthy), decrypt-then-merge-then-encrypt: fetch the current plaintext via
`getCredentials` (which yields `null` for inactive/expired rows), merge with
JS `||` defaults (`accessToken: updates.accessToken ||
currentCredentials?.accessToken || ""`), re-encrypt, and write
`encryptedAccessToken` unconditionally but `encryptedRefreshToken` only when a
truthy new blob exists.  The remaining fields update when supplied
(`!== undefined`). -/
def updateCredentials (K : TokenCrypto) (db : Db) (now : Int) (accountId : String)
    (u : CredUpdates) : Except SvcError (Db × SocialAccount) :=
  match findById db accountId with
  | none => .error .internal
  | some acc =>
    let tokenStep : Except SvcError (String × Option String) :=
      if jsStrTruthy u.accessToken || jsStrTruthy u.refreshToken then
        match getCredentials K db now accountId with
        | .error e => .error e
        | .ok cur =>
          let mergedA : String :=
            (jsOrStr u.accessToken (cur.map (·.accessToken))).getD ""
          let mergedR : Option String :=
            jsOrStr u.refreshToken (cur.bind (·.refreshToken))
          let ed := encryptCredentials K mergedA mergedR
          .ok (ed.1,
            match jsOrUndef ed.2 with
            | some b => some b
            | none => acc.encryptedRefreshToken)
      else
        .ok (acc.encryptedAccessToken, acc.encryptedRefreshToken)
    match tokenStep with
    | .error e => .error e
    | .ok (newEncA, newEncR) =>
      let upd : SocialAccount :=
        { acc with
          encryptedAccessToken := newEncA
          encryptedRefreshToken := newEncR
          tokenExpiresAt :=
            match u.expiresAt with
            | some t => some t
            | none => acc.tokenExpiresAt
          displayName := u.displayName.getD acc.displayName
          permissions := u.permissions.getD acc.permissions
          platformMetadata := u.platformMetadata.getD acc.platformMetadata
          updatedAt := now }
      .ok (updateById db accountId fun _ => upd, upd)

/-- `CredentialService.revokeCredentials(accountId)`: missing row → thrown
`NOT_FOUND`, folded into `INTERNAL_SERVER_ERROR` by the `catch`; otherwise set
`isActive: false`. -/
def revokeCredentials (db : Db) (now : Int) (accountId : String) :
    Except SvcError Db :=
  match findById db accountId with
  | none => .error .internal
  | some _ =>
    .ok (updateById db accountId fun a => { a with isActive := false, updatedAt := now })

/-- `CredentialService.needsRefresh` success path, after the row lookup:
missing or `!isActive` row → `false`; no `tokenExpiresAt` → `false`; else
`tokenExpiresAt <= new Date(Date.now() + 5 * 60 * 1000)`. -/
def needsRefreshPure (row : Option SocialAccount) (now : Int) : Bool :=
  match row with
  | none => false
  | some acc =>
    if acc.isActive = false then false
    else
      match acc.tokenExpiresAt with
      | none => false
      | some t => decide (t ≤ now + 5 * 60 * 1000)

/-- `CredentialService.needsRefresh(accountId)`: the row lookup may itself
fail, in which case the `catch` returns `true` ("err on the side of
caution"). -/
def needsRefresh (lookup : Except SvcError (Option SocialAccount)) (now : Int) :
    Bool :=
  match lookup with
  | .error _ => true
  | .ok row => needsRefreshPure row now

/-- Outcome of the remote revoke call in `XAuthProvider.revokeAccess`:
HTTP success, HTTP failure (`!response.ok`, logged with `console.warn`), or a
thrown network error (caught by the `catch` block). -/
inductive RemoteOutcome
  | ok
  | httpFail
  | threw
deriving DecidableEq, Repr

/-- `XAuthProvider.revokeAccess(accountId)`: fetch the stored credentials
(`getStoredCredentials` = `getCredentials`); on `null` return immediately
("Already revoked or doesn't exist").  Otherwise call the platform revoke
endpoint and, on HTTP failure (warn) or thrown error (catch), still call
`revokeCredentials` — the remote outcome never decides the result. -/
def revokeAccess (K : TokenCrypto) (db : Db) (now : Int) (accountId : String)
    (remote : RemoteOutcome) : Except SvcError Db :=
  match getCredentials K db now accountId with
  | .error e => .error e
  | .ok none => .ok db
  | .ok (some _) =>
    match remote with
    | .ok => revokeCredentials db now accountId
    | .httpFail => revokeCredentials db now accountId
    | .threw => revokeCredentials db now accountId

/-! ### Concrete instances and sample rows for evaluating the model -/

/-- Identity token-crypto instance (satisfies the round-trip contract). -/
def tokCryptoId : TokenCrypto where
  encTok := id
  decTok := some
  dec_enc := fun _ => rfl

/-- Tagging token-crypto instance whose ciphertexts are never empty. -/
def tokCryptoTag : TokenCrypto where
  encTok := fun s => String.mk ('E' :: s.data)
  decTok := fun t =>
    match t.data with
    | 'E' :: cs => some (String.mk cs)
    | _ => none
  dec_enc := fun s => by cases s; rfl

/-- `tokCryptoTag` never produces an empty ciphertext. -/
theorem tokCryptoTag_enc_ne_empty (s : String) : tokCryptoTag.encTok s ≠ "" := by
  intro h
  have := congrArg String.data h
  simp [tokCryptoTag] at this

/-- A healthy stored row: active, expiry at t = 1000000, identity-crypto
blobs. -/
def accA : SocialAccount where
  id := "a1"
  workspaceId := "w1"
  platform := "x"
  accountType := "personal"
  platformAccountId := "p1"
  displayName := "Acme"
  encryptedAccessToken := "tokA"
  encryptedRefreshToken := some "tokR"
  tokenExpiresAt := some 1000000
  isActive := true
  permissions := ["tweet.read"]
  platformMetadata := [("platform", "x")]
  createdAt := 0
  updatedAt := 0

/-- The plaintext view of `accA` under `tokCryptoId`. -/
def curA : SocialCredentials where
  accessToken := "tokA"
  refreshToken := some "tokR"
  expiresAt := some 1000000
  scope := none
  platformAccountId := "p1"
  displayName := "Acme"
  permissions := ["tweet.read"]
  platformMetadata := [("platform", "x")]

/-- `accA`, deactivated, expiring at t = 180000. -/
def accInactive : SocialAccount :=
  { accA with isActive := false, tokenExpiresAt := some 180000 }

/-- `accA`, still active but already expired at `now = 100`. -/
def accExpired : SocialAccount :=
  { accA with tokenExpiresAt := some 10 }

/-- `accA` with blobs produced by `tokCryptoTag`. -/
def accTagged : SocialAccount :=
  { accA with
    encryptedAccessToken := tokCryptoTag.encTok "tokA"
    encryptedRefreshToken := some (tokCryptoTag.encTok "tokR") }

/-! ### C8: fetch returns null for missing/inactive/expired records -/

/-- C8: `getCredentials` returns `null` — not an error — when the record is
missing, inactive, or has an already-passed expiry; in particular for any
inactive record regardless of its token blobs. -/
theorem c8_fetch_null_cases (K : TokenCrypto) (db : Db) (now : Int)
    (accountId : String)
    (h : findById db accountId = none ∨
      ∃ acc, findById db accountId = some acc ∧
        (acc.isActive = false ∨ ∃ t, acc.tokenExpiresAt = some t ∧ t < now)) :
    getCredentials K db now accountId = .ok none := by
  unfold getCredentials
  rcases h with h | ⟨acc, hacc, hcase⟩
  · rw [h]
  · rw [hacc]
    rcases hcase with hin | ⟨t, hexp, hlt⟩
    · simp [hin]
    · by_cases hact : acc.isActive = false
      · simp [hact]
      · simp [hact, hexp, hlt]

/-- Witness for C8: an inactive record with well-formed blobs fetches as
`null`. -/
theorem c8_fetch_null_cases_witness :
    getCredentials tokCryptoId [accInactive] 0 "a1" = .ok none :=
  c8_fetch_null_cases tokCryptoId [accInactive] 0 "a1"
    (Or.inr ⟨accInactive, rfl, Or.inl rfl⟩)

/-! ### C10: needsRefresh on missing/inactive records and failed lookups -/

/-- C10: `needsRefresh` reports `false` for a missing or inactive record, and
`true` when the row lookup itself fails. -/
theorem c10_needs_refresh_edge (now : Int) :
    needsRefresh (.ok none) now = false ∧
    (∀ acc : SocialAccount, acc.isActive = false →
      needsRefresh (.ok (some acc)) now = false) ∧
    needsRefresh (.error .internal) now = true := by
  refine ⟨rfl, ?_, rfl⟩
  intro acc h
  unfold needsRefresh needsRefreshPure
  simp [h]

/-- Witness for C10: the inactive sample row, at `now = 5`. -/
theorem c10_needs_refresh_edge_witness :
    needsRefresh (.ok (some accInactive)) 5 = false :=
  (c10_needs_refresh_edge 5).2.1 accInactive rfl

/-! ### C6: needsRefresh lookahead window -/

/-- C6 counterexample: an inactive record with an expiry inside the 5-minute
lookahead window — the claim's "iff" demands `true`, the code returns
`false` (the claim omits the activity requirement). -/
theorem c6_counterexample :
    needsRefreshPure (some accInactive) 0 = false ∧
    accInactive.tokenExpiresAt = some 180000 ∧
    (180000 : Int) ≤ 0 + 5 * 60 * 1000 :=
  ⟨rfl, rfl, by decide⟩

/-- C6 (amended): for an existing ACTIVE record, `needsRefresh` is `true` iff
an expiry is set and it is at or before `now + 5min` (already-passed expiries
included); in particular expiry at `now + 3min` gives `true` and
`now + 10min` gives `false`. -/
theorem c6_needs_refresh_iff (acc : SocialAccount) (now : Int)
    (hact : acc.isActive = true) :
    (needsRefreshPure (some acc) now = true ↔
      ∃ t, acc.tokenExpiresAt = some t ∧ t ≤ now + 5 * 60 * 1000) ∧
    needsRefreshPure (some { acc with tokenExpiresAt := some (now + 3 * 60 * 1000) })
      now = true ∧
    needsRefreshPure (some { acc with tokenExpiresAt := some (now + 10 * 60 * 1000) })
      now = false := by
  refine ⟨?_, ?_, ?_⟩
  · unfold needsRefreshPure
    cases hexp : acc.tokenExpiresAt with
    | none => simp [hact, hexp]
    | some t => simp [hact, hexp]
  · unfold needsRefreshPure
    simp [hact]
  · unfold needsRefreshPure
    simp [hact]

/-- Witness for C6 (amended): the active sample row at `now = 900000`. -/
theorem c6_needs_refresh_iff_witness :
    (needsRefreshPure (some accA) 900000 = true ↔
      ∃ t, accA.tokenExpiresAt = some t ∧ t ≤ 900000 + 5 * 60 * 1000) ∧
    needsRefreshPure (some { accA with tokenExpiresAt := some (900000 + 3 * 60 * 1000) })
      900000 = true ∧
    needsRefreshPure (some { accA with tokenExpiresAt := some (900000 + 10 * 60 * 1000) })
      900000 = false :=
  c6_needs_refresh_iff accA 900000 rfl

/-! ### C5: revokeAccess and the local record -/

/-- C5 counterexample: an EXISTING, still-ACTIVE record whose token expiry has
already passed.  `getStoredCredentials` returns `null` for it, so
`revokeAccess` returns early and the record is NOT marked inactive — the
claim's "for every existing credential record" fails. -/
theorem c5_counterexample :
    findById [accExpired] "a1" = some accExpired ∧
    accExpired.isActive = true ∧
    revokeAccess tokCryptoId [accExpired] 100 "a1" .ok = .ok [accExpired] ∧
    (findById [accExpired] "a1").map (·.isActive) = some true :=
  ⟨rfl, rfl, rfl, rfl⟩

/-- C5 (amended): for every record that `getCredentials` can return (existing,
active, unexpired, decryptable), `revokeAccess` succeeds and marks the local
record inactive under every remote outcome — HTTP success, HTTP failure, or a
thrown network error — so a remote failure is never propagated as the
operation's outcome.  Records that are missing, inactive, or expired are left
untouched by an early return. -/
theorem c5_revoke_local (K : TokenCrypto) (db : Db) (now : Int)
    (accountId : String) (cur : SocialCredentials) (remote : RemoteOutcome)
    (h : getCredentials K db now accountId = .ok (some cur)) :
    revokeAccess K db now accountId remote
      = .ok (updateById db accountId fun a =>
          { a with isActive := false, updatedAt := now }) ∧
    ∀ a ∈ updateById db accountId fun a =>
        { a with isActive := false, updatedAt := now },
      a.id = accountId → a.isActive = false := by
  have hfind : ∃ acc, findById db accountId = some acc := by
    unfold getCredentials at h
    cases hf : findById db accountId with
    | none => rw [hf] at h; simp at h
    | some acc => exact ⟨acc, rfl⟩
  obtain ⟨acc, hf⟩ := hfind
  constructor
  · unfold revokeAccess
    rw [h]
    have hrc : revokeCredentials db now accountId
        = .ok (updateById db accountId fun a =>
            { a with isActive := false, updatedAt := now }) := by
      unfold revokeCredentials
      rw [hf]
    cases remote <;> exact hrc
  · intro a ha hid
    unfold updateById at ha
    obtain ⟨b, _, hfb⟩ := List.mem_map.mp ha
    by_cases hbid : b.id == accountId
    · rw [if_pos hbid] at hfb
      rw [← hfb]
    · rw [if_neg hbid] at hfb
      subst hfb
      exact absurd hid (by simpa using hbid)

/-- Witness for C5 (amended): the healthy sample row, with the remote revoke
call failing at the HTTP level. -/
theorem c5_revoke_local_witness :
    revokeAccess tokCryptoId [accA] 0 "a1" .httpFail
      = .ok (updateById [accA] "a1" fun a =>
          { a with isActive := false, updatedAt := 0 }) ∧
    ∀ a ∈ updateById [accA] "a1" fun a =>
        { a with isActive := false, updatedAt := 0 },
      a.id = "a1" → a.isActive = false :=
  c5_revoke_local tokCryptoId [accA] 0 "a1" curA .httpFail rfl

/-! ### C4: updateCredentials token merging -/

/-- Inverting a successful `getCredentials`: the stored access-token blob
decrypts to the returned access token, and the stored refresh blob's decrypt
view is the returned refresh token. -/
theorem getCredentials_some_inv (K : TokenCrypto) (db : Db) (now : Int)
    (accountId : String) (cur : SocialCredentials) (acc : SocialAccount)
    (hf : findById db accountId = some acc)
    (h : getCredentials K db now accountId = .ok (some cur)) :
    K.decTok acc.encryptedAccessToken = some cur.accessToken ∧
    refreshViewBlob K acc.encryptedRefreshToken = some cur.refreshToken := by
  unfold getCredentials at h
  rw [hf] at h
  dsimp only at h
  by_cases hact : acc.isActive = false
  · simp [hact] at h
  rw [if_neg hact] at h
  by_cases hexp : acc.tokenExpiresAt.any (fun t => decide (t < now)) = true
  · rw [if_pos hexp] at h
    simp at h
  rw [if_neg hexp] at h
  unfold decryptCredentials at h
  cases hda : K.decTok acc.encryptedAccessToken with
  | none => rw [hda] at h; simp at h
  | some a₀ =>
    rw [hda] at h
    dsimp only at h
    cases hju : jsOrUndef acc.encryptedRefreshToken with
    | none =>
      rw [hju] at h
      dsimp only at h
      simp only [Except.ok.injEq, Option.some.injEq] at h
      refine ⟨?_, ?_⟩
      · rw [← h]
      · unfold refreshViewBlob
        rw [hju]
        dsimp only
        rw [← h]
    | some b =>
      rw [hju] at h
      dsimp only at h
      cases hdb : K.decTok b with
      | none => rw [hdb] at h; simp at h
      | some r₀ =>
        rw [hdb] at h
        dsimp only at h
        simp only [Except.ok.injEq, Option.some.injEq] at h
        refine ⟨?_, ?_⟩
        · rw [← h]
        · unfold refreshViewBlob
          rw [hju]
          dsimp only
          rw [hdb]
          dsimp only
          rw [← h]

/-- The update supplying only a refresh token, as sent by a token-refresh
flow. -/
def updRefreshOnly : CredUpdates :=
  { CredUpdates.empty with refreshToken := some "newR" }

/-- C4 counterexample: updating only the refresh token of a stored (here:
inactive) record.  `getCredentials` returns `null` for it, the `||`-merge
falls through to `""`, and the stored access-token blob `"tokA"` is replaced
by the encryption of the empty string — the omitted token field is NOT
preserved. -/
theorem c4_counterexample :
    accInactive.encryptedAccessToken = "tokA" ∧
    (updateCredentials tokCryptoId [accInactive] 0 "a1" updRefreshOnly).map
        (fun r => (findById r.1 "a1").map (·.encryptedAccessToken))
      = .ok (some (tokCryptoId.encTok "")) ∧
    tokCryptoId.encTok "" ≠ "tokA" :=
  ⟨rfl, rfl, by decide⟩

/-- C4 (amended): when the record is active, unexpired and decryptable — so
`getCredentials` returns its current plaintext — an update supplying one
non-empty token field without the other preserves the omitted field through
decrypt-then-merge-then-encrypt: supplying only an access token stores the new
access token and keeps the stored refresh-token view unchanged; supplying only
a refresh token re-encrypts the current access token unchanged and stores the
new refresh token.  (When `getCredentials` returns `null` — inactive or
expired record — the access token is instead replaced by an encryption of
`""`; see the counterexample.) -/
theorem c4_merge_preserves_tokens (K : TokenCrypto) (db : Db) (now : Int)
    (accountId a₂ r₂ : String) (cur : SocialCredentials) (acc : SocialAccount)
    (henc : ∀ s, K.encTok s ≠ "")
    (hfind : findById db accountId = some acc)
    (h : getCredentials K db now accountId = .ok (some cur))
    (ha₂ : a₂ ≠ "") (hr₂ : r₂ ≠ "") :
    (updateCredentials K db now accountId
        ⟨some a₂, none, none, none, none, none, none⟩).map
        (fun r => (r.2.encryptedAccessToken,
          refreshViewBlob K r.2.encryptedRefreshToken))
      = .ok (K.encTok a₂, some cur.refreshToken) ∧
    (updateCredentials K db now accountId
        ⟨none, some r₂, none, none, none, none, none⟩).map
        (fun r => (K.decTok r.2.encryptedAccessToken, r.2.encryptedRefreshToken))
      = .ok (some cur.accessToken, some (K.encTok r₂)) := by
  obtain ⟨hda, hvr⟩ := getCredentials_some_inv K db now accountId cur acc hfind h
  constructor
  · rcases hcr : cur.refreshToken with _ | r
    · rw [hcr] at hvr
      simp [updateCredentials, hfind, h, jsStrTruthy, jsOrStr, jsOrUndef,
        encryptCredentials, Except.map, ha₂, hcr, hvr]
    · by_cases hr0 : r = ""
      · subst hr0
        rw [hcr] at hvr
        simp [updateCredentials, hfind, h, jsStrTruthy, jsOrStr, jsOrUndef,
          encryptCredentials, Except.map, ha₂, hcr, hvr]
      · rw [hcr] at hvr
        simp [updateCredentials, hfind, h, jsStrTruthy, jsOrStr, jsOrUndef,
          encryptCredentials, refreshViewBlob, Except.map, ha₂, hcr, hr0, henc r,
          K.dec_enc]
  · simp [updateCredentials, hfind, h, jsStrTruthy, jsOrStr, jsOrUndef,
      encryptCredentials, Except.map, hr₂, henc r₂, K.dec_enc]

/-- Witness for C4 (amended): the healthy sample row under the tagging crypto,
updated once with only a new access token and once with only a new refresh
token. -/
theorem c4_merge_preserves_tokens_witness :
    (updateCredentials tokCryptoTag [accTagged] 0 "a1"
        ⟨some "newA", none, none, none, none, none, none⟩).map
        (fun r => (r.2.encryptedAccessToken,
          refreshViewBlob tokCryptoTag r.2.encryptedRefreshToken))
      = .ok (tokCryptoTag.encTok "newA", some curA.refreshToken) ∧
    (updateCredentials tokCryptoTag [accTagged] 0 "a1"
        ⟨none, some "newR", none, none, none, none, none⟩).map
        (fun r => (tokCryptoTag.decTok r.2.encryptedAccessToken,
          r.2.encryptedRefreshToken))
      = .ok (some curA.accessToken, some (tokCryptoTag.encTok "newR")) :=
  c4_merge_preserves_tokens tokCryptoTag [accTagged] 0 "a1" "newA" "newR" curA
    accTagged tokCryptoTag_enc_ne_empty rfl rfl (by decide) (by decide)

/-! ### C7: storeCredentials upsert semantics -/

/-- `find?` skips a prefix containing no match. -/
theorem find?_append_of_none {α : Type} (p : α → Bool) (l₁ l₂ : List α)
    (h : l₁.find? p = none) : (l₁ ++ l₂).find? p = l₂.find? p := by
  induction l₁ with
  | nil => rfl
  | cons a t ih =>
    by_cases hpa : p a = true
    · rw [List.find?_cons_of_pos _ hpa] at h
      exact absurd h (by simp)
    · have hpa' : ¬ p a := by simpa using hpa
      rw [List.find?_cons_of_neg _ hpa'] at h
      rw [List.cons_append, List.find?_cons_of_neg _ hpa']
      exact ih h

/-- The create branch of `storeCredentials`: no conflicting row, so a fresh
row is appended; its key fields. -/
theorem storeCredentials_create (K : TokenCrypto) (db : Db) (now : Int)
    (freshId w p at₁ : String) (c : SocialCredentials)
    (h : findByTriple db w p c.platformAccountId = none) :
    (storeCredentials K db now freshId w p at₁ c).1
      = db ++ [(storeCredentials K db now freshId w p at₁ c).2] ∧
    (storeCredentials K db now freshId w p at₁ c).2.id = freshId ∧
    (storeCredentials K db now freshId w p at₁ c).2.workspaceId = w ∧
    (storeCredentials K db now freshId w p at₁ c).2.platform = p ∧
    (storeCredentials K db now freshId w p at₁ c).2.platformAccountId
      = c.platformAccountId := by
  unfold storeCredentials
  rw [h]
  exact ⟨rfl, rfl, rfl, rfl, rfl⟩

/-- The update branch of `storeCredentials`: a conflicting row exists, so it
is rewritten in place — no row is added — and the rewritten row carries the
latest display name, token blob, permissions and metadata, with
`isActive := true`. -/
theorem storeCredentials_update (K : TokenCrypto) (db : Db) (now : Int)
    (freshId w p at₁ : String) (c : SocialCredentials) (acc : SocialAccount)
    (h : findByTriple db w p c.platformAccountId = some acc) :
    (storeCredentials K db now freshId w p at₁ c).1
      = updateById db acc.id (fun _ => (storeCredentials K db now freshId w p at₁ c).2) ∧
    (storeCredentials K db now freshId w p at₁ c).2.id = acc.id ∧
    (storeCredentials K db now freshId w p at₁ c).2.workspaceId = acc.workspaceId ∧
    (storeCredentials K db now freshId w p at₁ c).2.platform = acc.platform ∧
    (storeCredentials K db now freshId w p at₁ c).2.platformAccountId
      = acc.platformAccountId ∧
    (storeCredentials K db now freshId w p at₁ c).2.displayName = c.displayName ∧
    (storeCredentials K db now freshId w p at₁ c).2.encryptedAccessToken
      = K.encTok c.accessToken ∧
    (storeCredentials K db now freshId w p at₁ c).2.isActive = true ∧
    (storeCredentials K db now freshId w p at₁ c).2.permissions = c.permissions ∧
    (storeCredentials K db now freshId w p at₁ c).2.platformMetadata
      = c.platformMetadata := by
  unfold storeCredentials
  rw [h]
  exact ⟨rfl, rfl, rfl, rfl, rfl, rfl, rfl, rfl, rfl, rfl⟩

/-- Rewriting a row that is not present leaves the table unchanged. -/
theorem map_update_id (db : Db) (key : String) (r : SocialAccount)
    (h : ∀ a ∈ db, a.id ≠ key) :
    db.map (fun a => if a.id == key then r else a) = db := by
  induction db with
  | nil => rfl
  | cons a t ih =>
    rw [List.map_cons]
    have ha : a.id ≠ key := h a (by simp)
    rw [if_neg (by simpa using ha), ih fun b hb => h b (by simp [hb])]

/-- Storing twice in a row (the upsert scenario of the claim). -/
def storeTwice (K : TokenCrypto) (db₀ : Db) (now₁ now₂ : Int)
    (freshId₁ freshId₂ w p at₁ at₂ : String) (c₁ c₂ : SocialCredentials) : Db :=
  (storeCredentials K (storeCredentials K db₀ now₁ freshId₁ w p at₁ c₁).1
    now₂ freshId₂ w p at₂ c₂).1

/-- C7: storing credentials twice for the same
(workspace, platform, platformAccountId) triple — starting from a table with
no row for the triple and a non-colliding fresh id — leaves exactly one row
for the triple, and that row carries the second store's display name, token
material, permissions and metadata, and is active. -/
theorem c7_store_upsert_unique (K : TokenCrypto) (db₀ : Db) (now₁ now₂ : Int)
    (freshId₁ freshId₂ w p at₁ at₂ : String) (c₁ c₂ : SocialCredentials)
    (hpid : c₁.platformAccountId = c₂.platformAccountId)
    (h₀ : findByTriple db₀ w p c₂.platformAccountId = none)
    (hid : ∀ a ∈ db₀, a.id ≠ freshId₁) :
    ((storeTwice K db₀ now₁ now₂ freshId₁ freshId₂ w p at₁ at₂ c₁ c₂).filter
        (tripleMatches w p c₂.platformAccountId)).length = 1 ∧
    ∀ a ∈ storeTwice K db₀ now₁ now₂ freshId₁ freshId₂ w p at₁ at₂ c₁ c₂,
      tripleMatches w p c₂.platformAccountId a = true →
        a.displayName = c₂.displayName ∧
        K.decTok a.encryptedAccessToken = some c₂.accessToken ∧
        a.isActive = true ∧
        a.permissions = c₂.permissions ∧
        a.platformMetadata = c₂.platformMetadata := by
  have h₀' : findByTriple db₀ w p c₁.platformAccountId = none := by
    rw [hpid]; exact h₀
  obtain ⟨hdb₁, hr₁id, hr₁w, hr₁p, hr₁pid⟩ :=
    storeCredentials_create K db₀ now₁ freshId₁ w p at₁ c₁ h₀'
  set r₁ := (storeCredentials K db₀ now₁ freshId₁ w p at₁ c₁).2 with hr₁
  set db₁ := (storeCredentials K db₀ now₁ freshId₁ w p at₁ c₁).1 with hdb₁def
  have hPr₁ : tripleMatches w p c₂.platformAccountId r₁ = true := by
    simp [tripleMatches, hr₁w, hr₁p, hr₁pid, hpid]
  have hfind₁ : findByTriple db₁ w p c₂.platformAccountId = some r₁ := by
    rw [hdb₁]
    unfold findByTriple at h₀ ⊢
    rw [find?_append_of_none _ _ _ h₀, List.find?_cons_of_pos _ hPr₁]
  obtain ⟨hdb₂, hr₂id, hr₂w, hr₂p, hr₂pid, hr₂dn, hr₂ea, hr₂act, hr₂perm, hr₂meta⟩ :=
    storeCredentials_update K db₁ now₂ freshId₂ w p at₂ c₂ r₁ hfind₁
  set r₂ := (storeCredentials K db₁ now₂ freshId₂ w p at₂ c₂).2 with hr₂
  have hdb₂' : (storeCredentials K db₁ now₂ freshId₂ w p at₂ c₂).1 = db₀ ++ [r₂] := by
    rw [hdb₂, hdb₁]
    unfold updateById
    rw [List.map_append,
      map_update_id db₀ r₁.id r₂ fun a ha => by rw [hr₁id]; exact hid a ha]
    simp
  have hstw : storeTwice K db₀ now₁ now₂ freshId₁ freshId₂ w p at₁ at₂ c₁ c₂
      = db₀ ++ [r₂] := by
    unfold storeTwice
    rw [← hdb₁def]
    exact hdb₂'
  have hPr₂ : tripleMatches w p c₂.platformAccountId r₂ = true := by
    simp [tripleMatches, hr₂w, hr₁w, hr₂p, hr₁p, hr₂pid, hr₁pid, hpid]
  have hnot₀ : ∀ a ∈ db₀, ¬ tripleMatches w p c₂.platformAccountId a = true := by
    intro a ha
    unfold findByTriple at h₀
    exact List.find?_eq_none.mp h₀ a ha
  constructor
  · rw [hstw, List.filter_append]
    have hfilter₀ : db₀.filter (tripleMatches w p c₂.platformAccountId) = [] := by
      rw [List.filter_eq_nil_iff]
      exact hnot₀
    rw [hfilter₀]
    simp [hPr₂]
  · intro a ha hPa
    rw [hstw] at ha
    rcases List.mem_append.mp ha with ha₀ | ha₂
    · exact absurd hPa (hnot₀ a ha₀)
    · have : a = r₂ := by simpa using ha₂
      subst this
      exact ⟨hr₂dn, by rw [hr₂ea, K.dec_enc], hr₂act, hr₂perm, hr₂meta⟩

/-- Witness for C7 (upsert): the same external account stored twice into an
empty table with different display names yields a single active row showing
the latest name. -/
theorem c7_store_upsert_unique_witness :
    ((storeTwice tokCryptoId [] 0 1 "id1" "id2" "w1" "x" "personal" "personal"
        { curA with displayName := "Old" } { curA with displayName := "New" }).filter
        (tripleMatches "w1" "x" "p1")).length = 1 ∧
    ∀ a ∈ storeTwice tokCryptoId [] 0 1 "id1" "id2" "w1" "x" "personal" "personal"
        { curA with displayName := "Old" } { curA with displayName := "New" },
      tripleMatches "w1" "x" "p1" a = true →
        a.displayName = "New" ∧
        tokCryptoId.decTok a.encryptedAccessToken = some "tokA" ∧
        a.isActive = true ∧
        a.permissions = ["tweet.read"] ∧
        a.platformMetadata = [("platform", "x")] :=
  c7_store_upsert_unique tokCryptoId [] 0 1 "id1" "id2" "w1" "x" "personal" "personal"
    { curA with displayName := "Old" } { curA with displayName := "New" }
    rfl rfl (fun a ha => absurd ha (List.not_mem_nil a))

end GistReach
